import Mathlib

/-!
Shallow embedding of the `enum-from-variant` procedural derive generator
(`src/lib.rs`).  The generator receives the syntax tree of an annotated
declaration, extracts per-variant conversion directives from attribute
metadata, classifies each variant's payload shape, and emits one
`From` implementation per directive.  The syntax-tree fragments that the
generator actually inspects (identifiers, path types, unnamed fields,
attribute metadata) are embedded below; the generated token stream is
embedded as a list of `GenItem` values, one per emitted item.
-/

namespace EnumFromVariant

/-- A source span (proc-macro `Span`), modelled as an opaque tag.  Spans are
carried through so that error anchoring can be stated. -/
structure Span where
  id : Nat
deriving DecidableEq, Repr

/-- `proc_macro2::Ident`: a name together with its span.  `syn` identifier
equality compares only the textual name, never the span. -/
structure Ident where
  name : String
  span : Span
deriving DecidableEq, Repr

/-- One segment of a `syn::Path` (only the identifier is inspected). -/
structure PathSegment where
  ident : Ident
deriving DecidableEq, Repr

/-- A `syn::Path`: an ordered list of segments. -/
structure Path where
  segments : List PathSegment
deriving DecidableEq, Repr

/-- A `syn::Type`, as far as the generator inspects it: either a path type
or anything else. -/
inductive Typ where
  | path (p : Path)
  | other
deriving DecidableEq, Repr

/-- A field of a variant (only its type is inspected). -/
structure Field where
  ty : Typ
deriving DecidableEq, Repr

/-- `syn::Fields`: named fields, unnamed (tuple) fields, or a unit variant. -/
inductive Fields where
  | named (fields : List Field)
  | unnamed (fields : List Field)
  | unit
deriving DecidableEq, Repr

/-- `syn::LitStr`: a string literal with its span. -/
structure LitStr where
  value : String
  span : Span
deriving DecidableEq, Repr

/-- `syn::Lit`, as far as the generator inspects it. -/
inductive Lit where
  | str (s : LitStr)
  | other
deriving DecidableEq, Repr

mutual
/-- `syn::Meta` (syn 1.x): a bare path, a parenthesized list, or a
name-value pair. -/
inductive Meta where
  | path (p : Path)
  | list (path : Path) (nested : List NestedMeta)
  | nameValue (path : Path) (lit : Lit)

/-- `syn::NestedMeta` (syn 1.x): an inner meta item or a literal. -/
inductive NestedMeta where
  | meta (m : Meta)
  | lit (l : Lit)
end

/-- A `syn::Attribute` on a variant: its path name, the span of its token
tree (used by `Error::new_spanned`), and the result of `parse_meta()`
(`none` models a parse failure). -/
structure Attribute where
  pathName : String
  tokensSpan : Span
  parsedMeta : Option Meta

/-- A `syn::Variant`: name, fields, attached attributes. -/
structure Variant where
  ident : Ident
  fields : Fields
  attrs : List Attribute

/-- A `syn::Error`: message anchored at a span (`Error::new_spanned`). -/
structure SynError where
  span : Span
  msg : String
deriving DecidableEq, Repr

/-- Result of `get_attributes` (struct `MapEnumDataPunctuated` in `lib.rs`):
the variant's name, the nested metadata of the recognized attribute list,
and the identifier heading the type of the variant's first unnamed field,
when there is one. -/
structure MapEnumDataPunctuated where
  variant_ident : Ident
  nested_meta : List NestedMeta
  inner_ident : Option Ident

/-- Struct `MapEnumData` in `lib.rs`: one conversion directive, i.e. one
nested meta item paired with its owning variant's name and inner type
identifier. -/
structure MapEnumData where
  variant_ident : Ident
  meta : NestedMeta
  inner_ident : Option Ident

/-- Enum `InnerIdentTypes` in `lib.rs`: the payload-shape classification. -/
inductive InnerIdentTypes where
  | string
  | named
  | unnamed
deriving DecidableEq, Repr

/-- `get_inner_ident_type` in `lib.rs` (lines 121-131): classify the inner
identifier.  `Ident::new("String", span) == ident` in syn compares the
textual name only, so the comparison is on `name`. -/
def get_inner_ident_type (ident : Option Ident) : InnerIdentTypes :=
  match ident with
  | some ident =>
    if ident.name = "String" then InnerIdentTypes.string
    else InnerIdentTypes.named
  | none => InnerIdentTypes.unnamed

/-- `get_variant_unnamed_ident` in `lib.rs` (lines 168-182): for unnamed
(tuple) fields, take the first field; if its type is a path type, return the
identifier of the path's first segment.  (`field.ty.next()` is quote's
`RepToTokensExt::next`, which yields the value itself.) -/
def get_variant_unnamed_ident (fields : Fields) : Option Ident :=
  match fields with
  | Fields.unnamed unnamed =>
    match unnamed.head? with
    | some field =>
      match field.ty with
      | Typ.path type_path =>
        match type_path.segments.head? with
        | some path_segment => some path_segment.ident
        | none => none
      | Typ.other => none
    | none => none
  | _ => none

/-- Loop body of `get_attributes` (lines 136-161): walk the variant's
attributes in order; an attribute whose `parse_meta()` fails is skipped; the
first one that parses is decisive: a `Meta::List` returns the nested
metadata (with the inner identifier of the fields), any other meta shape
returns an error anchored at the attribute's tokens.  If no attribute
parses, return the "Operation Error." anchored at the variant's name. -/
def get_attributes_loop (variant_ident : Ident) (fields : Fields) :
    List Attribute → Except SynError MapEnumDataPunctuated
  | [] =>
    Except.error ⟨variant_ident.span, "Operation Error."⟩
  | attrib :: rest =>
    match attrib.parsedMeta with
    | some meta =>
      match meta with
      | Meta.list _ nested =>
        match get_variant_unnamed_ident fields with
        | some ident =>
          Except.ok ⟨variant_ident, nested, some ident⟩
        | none =>
          Except.ok ⟨variant_ident, nested, none⟩
      | _ =>
        Except.error ⟨attrib.tokensSpan, "expected #[enum_from_variant(..)]"⟩
    | none => get_attributes_loop variant_ident fields rest

/-- `get_attributes` in `lib.rs` (lines 133-166). -/
def get_attributes (variants : Variant) : Except SynError MapEnumDataPunctuated :=
  get_attributes_loop variants.ident variants.fields variants.attrs

/-- `map_enum_data_from_variant` in `lib.rs` (lines 184-199): for each
variant in order, run `get_attributes`; on success push one `MapEnumData`
per nested meta item, in order; an error is discarded (`let _ = ...`) and
contributes nothing. -/
def map_enum_data_from_variant : List Variant → List MapEnumData
  | [] => []
  | variant :: rest =>
    (match get_attributes variant with
     | Except.ok attr =>
       attr.nested_meta.map (fun meta =>
         { variant_ident := attr.variant_ident
           meta := meta
           inner_ident := attr.inner_ident })
     | Except.error _ => [])
    ++ map_enum_data_from_variant rest

/-- One item of the generated token stream.  `implFrom src enumName variant
textual` stands for

  impl From<src> for enumName that constructs
  enumName::variant(err) when textual = false, and
  enumName::variant(err.to_string()) when textual = true

(in both cases a single-argument constructor call on the variant);
`compileError span msg` stands for a `compile_error!(msg)` invocation
emitted with `quote_spanned!` at `span`. -/
inductive GenItem where
  | compileError (span : Span) (msg : String)
  | implFrom (source : Ident) (enumName : Ident) (variant : Ident) (textual : Bool)
deriving DecidableEq, Repr

/-- The closure mapped over `enum_data` in `derive` (lines 68-95): a
directive whose meta is a string literal produces one item — a
`compile_error!` at the literal's span if the literal is empty, otherwise a
`From` impl whose source identifier is `Ident::new(&str.value(), str.span())`
and whose body wraps `err` directly when the classification is `Named` and
`err.to_string()` otherwise; any other meta shape produces nothing. -/
def construct_meta_item (enum_name : Ident) (m : MapEnumData) : Option GenItem :=
  match m.meta with
  | NestedMeta.lit (Lit.str str) =>
    if str.value = "" then
      some (GenItem.compileError str.span "Expected this to take a `type`")
    else
      match get_inner_ident_type m.inner_ident with
      | InnerIdentTypes.named =>
        some (GenItem.implFrom ⟨str.value, str.span⟩ enum_name m.variant_ident false)
      | _ =>
        some (GenItem.implFrom ⟨str.value, str.span⟩ enum_name m.variant_ident true)
  | _ => none

/-- The body of a `syn::DeriveInput`: an enum with its variants, or a
struct, or a union. -/
inductive Data where
  | enumData (variants : List Variant)
  | structData
  | unionData

/-- A `syn::DeriveInput`: the declaration's name and its body. -/
structure DeriveInput where
  ident : Ident
  data : Data

/-- `derive` in `lib.rs` (lines 58-98): for a non-enum declaration the
generator panics ("Couldn't fetch variants"), modelled as `Except.error`;
for an enum it collects the directives and emits, in order, the item each
directive produces (quote's interpolation drops `None` entries, which is
`List.filterMap`). -/
def derive (input : DeriveInput) : Except String (List GenItem) :=
  match input.data with
  | Data.enumData variants =>
    Except.ok
      ((map_enum_data_from_variant variants).filterMap (construct_meta_item input.ident))
  | _ => Except.error "Couldn't fetch variants"

/-- The items `derive` generates for one variant: nothing when
`get_attributes` fails, otherwise one optional item per nested meta in
order. -/
def variant_items (enum_name : Ident) (v : Variant) : List GenItem :=
  match get_attributes v with
  | Except.ok attr =>
    attr.nested_meta.filterMap (fun meta =>
      construct_meta_item enum_name
        { variant_ident := attr.variant_ident
          meta := meta
          inner_ident := attr.inner_ident })
  | Except.error _ => []

/-- A nested meta item that yields a `From` impl: a nonempty string
literal. -/
def valid_directive : NestedMeta → Bool
  | NestedMeta.lit (Lit.str s) => !(s.value == "")
  | _ => false

/-- Whether a generated item is a conversion implementation. -/
def is_impl : GenItem → Bool
  | GenItem.implFrom _ _ _ _ => true
  | GenItem.compileError _ _ => false

/-- Number of valid (variant, target-name) directives extracted from one
variant, duplicates counted. -/
def variant_impl_count (v : Variant) : Nat :=
  match get_attributes v with
  | Except.ok attr => attr.nested_meta.countP valid_directive
  | Except.error _ => 0

section Lemmas

/-- When the attribute loop succeeds, the result records exactly the
variant's name and the inner identifier computed from the variant's
fields. -/
lemma get_attributes_loop_ok {vi : Ident} {fs : Fields} {attrs : List Attribute}
    {attr : MapEnumDataPunctuated}
    (h : get_attributes_loop vi fs attrs = Except.ok attr) :
    attr.variant_ident = vi ∧ attr.inner_ident = get_variant_unnamed_ident fs := by
  induction attrs with
  | nil => simp [get_attributes_loop] at h
  | cons a rest ih =>
    rw [get_attributes_loop] at h
    cases hpm : a.parsedMeta with
    | none =>
      rw [hpm] at h
      exact ih h
    | some m =>
      rw [hpm] at h
      cases m with
      | path p => simp at h
      | nameValue p l => simp at h
      | list p nested =>
        cases hgv : get_variant_unnamed_ident fs with
        | some i =>
          rw [hgv] at h
          cases h
          exact ⟨rfl, rfl⟩
        | none =>
          rw [hgv] at h
          cases h
          exact ⟨rfl, rfl⟩

/-- Same statement through `get_attributes`. -/
lemma get_attributes_ok {v : Variant} {attr : MapEnumDataPunctuated}
    (h : get_attributes v = Except.ok attr) :
    attr.variant_ident = v.ident ∧ attr.inner_ident = get_variant_unnamed_ident v.fields :=
  get_attributes_loop_ok h

/-- Every nested meta item of a variant whose extraction succeeds appears as
a `MapEnumData` entry in the collected directive list. -/
lemma mem_map_enum_data {vs : List Variant} {v : Variant}
    {attr : MapEnumDataPunctuated} {m : NestedMeta}
    (hv : v ∈ vs) (ha : get_attributes v = Except.ok attr)
    (hm : m ∈ attr.nested_meta) :
    ({ variant_ident := attr.variant_ident, meta := m,
       inner_ident := attr.inner_ident } : MapEnumData) ∈
      map_enum_data_from_variant vs := by
  induction vs with
  | nil => cases hv
  | cons w rest ih =>
    rcases List.mem_cons.mp hv with h | h
    · subst h
      rw [map_enum_data_from_variant, ha]
      exact List.mem_append_left _ (List.mem_map.mpr ⟨m, hm, rfl⟩)
    · rw [map_enum_data_from_variant]
      exact List.mem_append_right _ (ih h)

/-- Whenever a directive of a successfully extracted variant produces an
item, that item appears in the generated output. -/
lemma derive_mem_of_directive {n : Ident} {vs : List Variant} {v : Variant}
    {attr : MapEnumDataPunctuated} {m : NestedMeta} {g : GenItem}
    (hv : v ∈ vs) (ha : get_attributes v = Except.ok attr)
    (hm : m ∈ attr.nested_meta)
    (hc : construct_meta_item n
      { variant_ident := attr.variant_ident, meta := m,
        inner_ident := attr.inner_ident } = some g) :
    ∃ l, derive ⟨n, Data.enumData vs⟩ = Except.ok l ∧ g ∈ l := by
  refine ⟨_, rfl, ?_⟩
  exact List.mem_filterMap.mpr ⟨_, mem_map_enum_data hv ha hm, hc⟩

/-- Unfolding of the directive collector at a cons cell. -/
lemma map_enum_data_cons (v : Variant) (rest : List Variant) :
    map_enum_data_from_variant (v :: rest) =
      (match get_attributes v with
       | Except.ok attr =>
         attr.nested_meta.map (fun meta =>
           { variant_ident := attr.variant_ident
             meta := meta
             inner_ident := attr.inner_ident })
       | Except.error _ => [])
      ++ map_enum_data_from_variant rest := rfl

/-- The generated output decomposes variant by variant, in declaration
order: it is the concatenation of each variant's item list. -/
lemma derive_enum_eq_flatten (n : Ident) (vs : List Variant) :
    derive ⟨n, Data.enumData vs⟩ =
      Except.ok ((vs.map (variant_items n)).flatten) := by
  show Except.ok ((map_enum_data_from_variant vs).filterMap (construct_meta_item n)) = _
  congr 1
  induction vs with
  | nil => rfl
  | cons v rest ih =>
    rw [map_enum_data_cons, List.filterMap_append, ih,
      List.map_cons, List.flatten_cons]
    congr 1
    rw [variant_items.eq_def]
    cases ha : get_attributes v with
    | ok attr => exact List.filterMap_map _ _ _
    | error e => rfl

/-- One list of directives contributes exactly one conversion
implementation per valid directive, duplicates counted. -/
lemma countP_construct (n : Ident) (vi : Ident) (ii : Option Ident) :
    ∀ ms : List NestedMeta,
      (ms.filterMap (fun meta =>
        construct_meta_item n
          { variant_ident := vi, meta := meta, inner_ident := ii })).countP is_impl
        = ms.countP valid_directive := by
  intro ms
  induction ms with
  | nil => rfl
  | cons m ms ih =>
    rw [List.countP_cons]
    cases m with
    | meta mm =>
      rw [List.filterMap_cons_none (by rfl)]
      simp [valid_directive, ih]
    | lit l =>
      cases l with
      | other =>
        rw [List.filterMap_cons_none (by rfl)]
        simp [valid_directive, ih]
      | str s =>
        by_cases hs : s.value = ""
        · simpa [List.filterMap_cons, construct_meta_item, hs, valid_directive,
            is_impl] using ih
        · cases hcl : get_inner_ident_type ii <;>
            simpa [List.filterMap_cons, construct_meta_item, hs, hcl,
              valid_directive, is_impl] using ih

/-- Each variant contributes exactly one conversion implementation per valid
directive, duplicates counted. -/
lemma countP_variant_items (n : Ident) (v : Variant) :
    (variant_items n v).countP is_impl = variant_impl_count v := by
  rw [variant_items.eq_def, variant_impl_count.eq_def]
  cases ha : get_attributes v with
  | error e => rfl
  | ok attr => exact countP_construct n attr.variant_ident attr.inner_ident attr.nested_meta

end Lemmas

section Examples

/-- The path `DatabaseError` (one segment). -/
def databaseErrorPath : Path := ⟨[⟨⟨"DatabaseError", ⟨2⟩⟩⟩]⟩

/-- The path `String` (one segment). -/
def stringPath : Path := ⟨[⟨⟨"String", ⟨5⟩⟩⟩]⟩

/-- The attribute path `enum_from_variant`, at a given span. -/
def markerPath (k : Nat) : Path := ⟨[⟨⟨"enum_from_variant", ⟨k⟩⟩⟩]⟩

/-- The enum name `MainError` of the running example. -/
def mainErrorIdent : Ident := ⟨"MainError", ⟨0⟩⟩

/-- Variant `Database(DatabaseError)` carrying
`#[enum_from_variant("DatabaseError")]`. -/
def databaseVariant : Variant :=
  { ident := ⟨"Database", ⟨1⟩⟩
    fields := Fields.unnamed [⟨Typ.path databaseErrorPath⟩]
    attrs := [{ pathName := "enum_from_variant", tokensSpan := ⟨3⟩,
                parsedMeta := some (Meta.list (markerPath 3)
                  [NestedMeta.lit (Lit.str ⟨"DatabaseError", ⟨4⟩⟩)]) }] }

/-- Variant `Network(String)` carrying
`#[enum_from_variant("NetworkError")]`. -/
def networkVariant : Variant :=
  { ident := ⟨"Network", ⟨6⟩⟩
    fields := Fields.unnamed [⟨Typ.path stringPath⟩]
    attrs := [{ pathName := "enum_from_variant", tokensSpan := ⟨7⟩,
                parsedMeta := some (Meta.list (markerPath 7)
                  [NestedMeta.lit (Lit.str ⟨"NetworkError", ⟨8⟩⟩)]) }] }

/-- Variant `Broken` carrying the malformed attribute
`#[enum_from_variant]` (a bare path, not a parenthesized list). -/
def malformedVariant : Variant :=
  { ident := ⟨"Broken", ⟨10⟩⟩
    fields := Fields.unit
    attrs := [{ pathName := "enum_from_variant", tokensSpan := ⟨11⟩,
                parsedMeta := some (Meta.path (markerPath 11)) }] }

/-- Variant `Bare` with no attribute at all. -/
def bareVariant : Variant :=
  { ident := ⟨"Bare", ⟨12⟩⟩, fields := Fields.unit, attrs := [] }

/-- Variant `Database(DatabaseError)` carrying `#[serde("Foo")]`: a
parenthesized-list attribute under a name other than the marker. -/
def serdeVariant : Variant :=
  { ident := ⟨"Database", ⟨13⟩⟩
    fields := Fields.unnamed [⟨Typ.path databaseErrorPath⟩]
    attrs := [{ pathName := "serde", tokensSpan := ⟨14⟩,
                parsedMeta := some (Meta.list ⟨[⟨⟨"serde", ⟨14⟩⟩⟩]⟩
                  [NestedMeta.lit (Lit.str ⟨"Foo", ⟨15⟩⟩)]) }] }

/-- Variant `Network(String)` carrying `#[enum_from_variant("")]`: an
empty target name. -/
def emptyTargetVariant : Variant :=
  { ident := ⟨"Network", ⟨16⟩⟩
    fields := Fields.unnamed [⟨Typ.path stringPath⟩]
    attrs := [{ pathName := "enum_from_variant", tokensSpan := ⟨17⟩,
                parsedMeta := some (Meta.list (markerPath 17)
                  [NestedMeta.lit (Lit.str ⟨"", ⟨18⟩⟩)]) }] }

/-- Variant `Pair(DatabaseError, String)` with two unnamed fields, carrying
`#[enum_from_variant("PairError")]`. -/
def pairVariant : Variant :=
  { ident := ⟨"Pair", ⟨19⟩⟩
    fields := Fields.unnamed [⟨Typ.path databaseErrorPath⟩, ⟨Typ.path stringPath⟩]
    attrs := [{ pathName := "enum_from_variant", tokensSpan := ⟨20⟩,
                parsedMeta := some (Meta.list (markerPath 20)
                  [NestedMeta.lit (Lit.str ⟨"PairError", ⟨21⟩⟩)]) }] }

/-- Variant `Database(DatabaseError)` carrying the duplicate directive list
`#[enum_from_variant("Foo", "Foo")]`. -/
def dupVariant : Variant :=
  { ident := ⟨"Database", ⟨22⟩⟩
    fields := Fields.unnamed [⟨Typ.path databaseErrorPath⟩]
    attrs := [{ pathName := "enum_from_variant", tokensSpan := ⟨23⟩,
                parsedMeta := some (Meta.list (markerPath 23)
                  [NestedMeta.lit (Lit.str ⟨"Foo", ⟨24⟩⟩),
                   NestedMeta.lit (Lit.str ⟨"Foo", ⟨24⟩⟩)]) }] }

end Examples

/-- Claim C1: for every directive on a variant whose payload classification
is "direct wrapped value" (exactly one unnamed field whose type is a named
(path) type other than `String`), the synthesized conversion rule wraps the
source value unchanged into that variant's single field (the generated impl
body is `Enum::Variant(err)`, i.e. `textual = false`), with no textual
conversion. -/
theorem direct_wrapped_value_unchanged
    (n : Ident) (vs : List Variant) (v : Variant)
    (f : Field) (p : Path) (seg : PathSegment) (segs : List PathSegment)
    (attr : MapEnumDataPunctuated) (s : LitStr)
    (hv : v ∈ vs)
    (hf : v.fields = Fields.unnamed [f])
    (hty : f.ty = Typ.path p)
    (hseg : p.segments = seg :: segs)
    (hns : seg.ident.name ≠ "String")
    (ha : get_attributes v = Except.ok attr)
    (hm : NestedMeta.lit (Lit.str s) ∈ attr.nested_meta)
    (hne : s.value ≠ "") :
    ∃ l, derive ⟨n, Data.enumData vs⟩ = Except.ok l ∧
      GenItem.implFrom ⟨s.value, s.span⟩ n v.ident false ∈ l := by
  obtain ⟨hvi, hii⟩ := get_attributes_ok ha
  have hinner : get_variant_unnamed_ident v.fields = some seg.ident := by
    rw [hf]
    simp [get_variant_unnamed_ident, hty, hseg]
  refine derive_mem_of_directive hv ha hm ?_
  rw [hvi, hii, hinner]
  simp [construct_meta_item, hne, get_inner_ident_type, hns]

/-- Witness for C1: the `Database(DatabaseError)` example with target
`DatabaseError` generates an impl wrapping the value unchanged. -/
theorem direct_wrapped_value_unchanged_witness :
    ∃ l, derive ⟨mainErrorIdent, Data.enumData [databaseVariant]⟩ = Except.ok l ∧
      GenItem.implFrom ⟨"DatabaseError", ⟨4⟩⟩ mainErrorIdent ⟨"Database", ⟨1⟩⟩ false ∈ l :=
  direct_wrapped_value_unchanged mainErrorIdent [databaseVariant] databaseVariant
    ⟨Typ.path databaseErrorPath⟩ databaseErrorPath ⟨⟨"DatabaseError", ⟨2⟩⟩⟩ []
    ⟨⟨"Database", ⟨1⟩⟩, [NestedMeta.lit (Lit.str ⟨"DatabaseError", ⟨4⟩⟩)],
      some ⟨"DatabaseError", ⟨2⟩⟩⟩
    ⟨"DatabaseError", ⟨4⟩⟩
    (List.Mem.head _) rfl rfl rfl (by decide) rfl (List.Mem.head _) (by decide)

/-- Claim C2: for every directive on a variant whose payload classification
is "string-like" (first path segment of the single unnamed field's type is
literally `String`) or "no inner value" (no unnamed path-typed field), the
synthesized rule wraps the textual representation of the source value (the
generated impl body is `Enum::Variant(err.to_string())`, i.e.
`textual = true`), never the raw value; a single-argument constructor call
is emitted even for "no inner value" variants, with no generator-level
validation. -/
theorem textual_wrap_for_string_like_or_no_inner
    (n : Ident) (vs : List Variant) (v : Variant)
    (attr : MapEnumDataPunctuated) (s : LitStr)
    (hv : v ∈ vs)
    (hcls : get_variant_unnamed_ident v.fields = none ∨
      ∃ i : Ident, get_variant_unnamed_ident v.fields = some i ∧ i.name = "String")
    (ha : get_attributes v = Except.ok attr)
    (hm : NestedMeta.lit (Lit.str s) ∈ attr.nested_meta)
    (hne : s.value ≠ "") :
    ∃ l, derive ⟨n, Data.enumData vs⟩ = Except.ok l ∧
      GenItem.implFrom ⟨s.value, s.span⟩ n v.ident true ∈ l := by
  obtain ⟨hvi, hii⟩ := get_attributes_ok ha
  refine derive_mem_of_directive hv ha hm ?_
  rw [hvi, hii]
  rcases hcls with hnone | ⟨i, hsome, hstr⟩
  · rw [hnone]
    simp [construct_meta_item, hne, get_inner_ident_type]
  · rw [hsome]
    simp [construct_meta_item, hne, get_inner_ident_type, hstr]

/-- Witness for C2: the `Network(String)` example with target
`NetworkError` generates an impl wrapping `err.to_string()`. -/
theorem textual_wrap_for_string_like_or_no_inner_witness :
    ∃ l, derive ⟨mainErrorIdent, Data.enumData [networkVariant]⟩ = Except.ok l ∧
      GenItem.implFrom ⟨"NetworkError", ⟨8⟩⟩ mainErrorIdent ⟨"Network", ⟨6⟩⟩ true ∈ l :=
  textual_wrap_for_string_like_or_no_inner mainErrorIdent [networkVariant] networkVariant
    ⟨⟨"Network", ⟨6⟩⟩, [NestedMeta.lit (Lit.str ⟨"NetworkError", ⟨8⟩⟩)],
      some ⟨"String", ⟨5⟩⟩⟩
    ⟨"NetworkError", ⟨8⟩⟩
    (List.Mem.head _) (Or.inr ⟨⟨"String", ⟨5⟩⟩, rfl, rfl⟩) rfl
    (List.Mem.head _) (by decide)

/-- Claim C6: for every directive whose literal target-type name is the
empty string, generation emits a `compile_error!` invocation anchored at
the literal's span, rather than silently skipping that directive. -/
theorem empty_target_compile_error
    (n : Ident) (vs : List Variant) (v : Variant)
    (attr : MapEnumDataPunctuated) (sp : Span)
    (hv : v ∈ vs)
    (ha : get_attributes v = Except.ok attr)
    (hm : NestedMeta.lit (Lit.str ⟨"", sp⟩) ∈ attr.nested_meta) :
    ∃ l, derive ⟨n, Data.enumData vs⟩ = Except.ok l ∧
      GenItem.compileError sp "Expected this to take a `type`" ∈ l := by
  refine derive_mem_of_directive hv ha hm ?_
  simp [construct_meta_item]

/-- Witness for C6: `#[enum_from_variant("")]` on `Network(String)` makes
the output contain a `compile_error!` at the empty literal's span. -/
theorem empty_target_compile_error_witness :
    ∃ l, derive ⟨mainErrorIdent, Data.enumData [emptyTargetVariant]⟩ = Except.ok l ∧
      GenItem.compileError ⟨18⟩ "Expected this to take a `type`" ∈ l :=
  empty_target_compile_error mainErrorIdent [emptyTargetVariant] emptyTargetVariant
    ⟨⟨"Network", ⟨16⟩⟩, [NestedMeta.lit (Lit.str ⟨"", ⟨18⟩⟩)], some ⟨"String", ⟨5⟩⟩⟩
    ⟨18⟩ (List.Mem.head _) rfl (List.Mem.head _)

/-- Claim C7: for every input declaration that is not an enum (a struct or
a union), the generator fails fatally (the "Couldn't fetch variants" panic)
before producing any conversion output. -/
theorem non_enum_input_fails (i : Ident) :
    derive ⟨i, Data.structData⟩ = Except.error "Couldn't fetch variants" ∧
    derive ⟨i, Data.unionData⟩ = Except.error "Couldn't fetch variants" :=
  ⟨rfl, rfl⟩

/-- Counterexample to C3: the variant `Broken` carries the malformed
attribute `#[enum_from_variant]` (a bare path, not a parenthesized list);
`get_attributes` does build the "expected #[enum_from_variant(..)]" error
at the attribute's span, but generation as a whole succeeds with empty
output — no hard error is raised and the variant is silently skipped. -/
theorem malformed_attribute_error_dropped_cex :
    get_attributes malformedVariant =
      Except.error ⟨⟨11⟩, "expected #[enum_from_variant(..)]"⟩ ∧
    derive ⟨mainErrorIdent, Data.enumData [malformedVariant]⟩ = Except.ok [] :=
  ⟨rfl, rfl⟩

/-- Claim C3 as amended: for every variant whose first attribute parses to
a meta that is not a parenthesized list, `get_attributes` returns an error
value anchored at that attribute's tokens naming the expected form, but
`map_enum_data_from_variant` discards the error, so the variant is
silently skipped and generation proceeds as if the variant were absent. -/
theorem malformed_attribute_silently_skipped
    (v : Variant) (a : Attribute) (rest : List Attribute) (m : Meta)
    (n : Ident) (vs : List Variant)
    (hattrs : v.attrs = a :: rest)
    (hpm : a.parsedMeta = some m)
    (hnl : ∀ p nested, m ≠ Meta.list p nested) :
    get_attributes v =
      Except.error ⟨a.tokensSpan, "expected #[enum_from_variant(..)]"⟩ ∧
    map_enum_data_from_variant (v :: vs) = map_enum_data_from_variant vs ∧
    derive ⟨n, Data.enumData (v :: vs)⟩ = derive ⟨n, Data.enumData vs⟩ := by
  have herr : get_attributes v =
      Except.error ⟨a.tokensSpan, "expected #[enum_from_variant(..)]"⟩ := by
    rw [get_attributes, hattrs, get_attributes_loop, hpm]
    cases m with
    | list p nested => exact absurd rfl (hnl p nested)
    | path p => rfl
    | nameValue p l => rfl
  have hmap : map_enum_data_from_variant (v :: vs) = map_enum_data_from_variant vs := by
    rw [map_enum_data_cons, herr]
    simp
  refine ⟨herr, hmap, ?_⟩
  show Except.ok _ = Except.ok _
  rw [hmap]

/-- Witness for amended C3: at the concrete malformed variant, the error
value exists but the directive list and the generated output are those of
the enum without the variant. -/
theorem malformed_attribute_silently_skipped_witness :
    get_attributes malformedVariant =
      Except.error ⟨⟨11⟩, "expected #[enum_from_variant(..)]"⟩ ∧
    map_enum_data_from_variant [malformedVariant] = map_enum_data_from_variant [] ∧
    derive ⟨mainErrorIdent, Data.enumData [malformedVariant]⟩ =
      derive ⟨mainErrorIdent, Data.enumData []⟩ :=
  malformed_attribute_silently_skipped malformedVariant
    { pathName := "enum_from_variant", tokensSpan := ⟨11⟩,
      parsedMeta := some (Meta.path (markerPath 11)) }
    [] (Meta.path (markerPath 11)) mainErrorIdent []
    rfl rfl (fun _ _ h => nomatch h)

/-- Counterexample to C4: for an enum whose only variant carries no
attribute, no variant yields a parsed attribute, yet generation succeeds
with empty output; the only error value constructed says "Operation
Error." at the variant's name — there is no "attribute not found" error at
the enum name, and nothing fails. -/
theorem missing_attribute_generation_succeeds_cex :
    derive ⟨mainErrorIdent, Data.enumData [bareVariant]⟩ = Except.ok [] ∧
    get_attributes bareVariant = Except.error ⟨⟨12⟩, "Operation Error."⟩ :=
  ⟨rfl, rfl⟩

/-- Claim C4 as amended: for every enum in which no variant yields a
successfully parsed attribute, generation succeeds with empty output (the
per-variant extraction errors are discarded); it does not fail. -/
theorem no_valid_attribute_empty_output
    (n : Ident) (vs : List Variant)
    (h : ∀ v ∈ vs, ∃ e, get_attributes v = Except.error e) :
    derive ⟨n, Data.enumData vs⟩ = Except.ok [] := by
  have hmap : map_enum_data_from_variant vs = [] := by
    induction vs with
    | nil => rfl
    | cons v rest ih =>
      obtain ⟨e, he⟩ := h v (List.mem_cons_self v rest)
      rw [map_enum_data_cons, he]
      simpa using ih (fun w hw => h w (List.mem_cons_of_mem v hw))
  show Except.ok _ = _
  rw [hmap]
  rfl

/-- Witness for amended C4: the single-variant enum with no attributes
generates empty output. -/
theorem no_valid_attribute_empty_output_witness :
    derive ⟨mainErrorIdent, Data.enumData [bareVariant]⟩ = Except.ok [] :=
  no_valid_attribute_empty_output mainErrorIdent [bareVariant]
    (fun v hv => by
      rw [List.mem_singleton.mp hv]
      exact ⟨⟨⟨12⟩, "Operation Error."⟩, rfl⟩)

/-- Counterexample to C5: a parenthesized-list attribute named `serde` —
not the `enum_from_variant` marker — contributes a directive: generation
for the variant `Database(DatabaseError)` carrying only `#[serde("Foo")]`
emits a `From<Foo>` impl. -/
theorem foreign_attribute_contributes_cex :
    derive ⟨mainErrorIdent, Data.enumData [serdeVariant]⟩ =
      Except.ok [GenItem.implFrom ⟨"Foo", ⟨15⟩⟩ mainErrorIdent ⟨"Database", ⟨13⟩⟩ false] :=
  rfl

/-- Claim C5 as amended: directives are extracted from the first attribute
on the variant whose metadata parses as a parenthesized list, regardless
of the attribute's name — the path of the meta list is universally
quantified here and never inspected, so attributes under names other than
`enum_from_variant` contribute directives exactly like the marker does. -/
theorem attribute_name_ignored
    (v : Variant) (a : Attribute) (rest : List Attribute)
    (p : Path) (nested : List NestedMeta)
    (hattrs : v.attrs = a :: rest)
    (hpm : a.parsedMeta = some (Meta.list p nested)) :
    get_attributes v =
      Except.ok ⟨v.ident, nested, get_variant_unnamed_ident v.fields⟩ := by
  rw [get_attributes, hattrs, get_attributes_loop, hpm]
  cases hgv : get_variant_unnamed_ident v.fields <;> rfl

/-- Witness for amended C5: the `#[serde("Foo")]` attribute is accepted by
the extractor exactly as the marker would be. -/
theorem attribute_name_ignored_witness :
    get_attributes serdeVariant =
      Except.ok ⟨⟨"Database", ⟨13⟩⟩, [NestedMeta.lit (Lit.str ⟨"Foo", ⟨15⟩⟩)],
        some ⟨"DatabaseError", ⟨2⟩⟩⟩ :=
  attribute_name_ignored serdeVariant
    { pathName := "serde", tokensSpan := ⟨14⟩,
      parsedMeta := some (Meta.list ⟨[⟨⟨"serde", ⟨14⟩⟩⟩]⟩
        [NestedMeta.lit (Lit.str ⟨"Foo", ⟨15⟩⟩)]) }
    [] ⟨[⟨⟨"serde", ⟨14⟩⟩⟩]⟩ [NestedMeta.lit (Lit.str ⟨"Foo", ⟨15⟩⟩)]
    rfl rfl

/-- Claim C8: for every enum, the number of emitted conversion
implementations equals the total number of valid (variant, target-name)
directives, duplicates counted — exactly one impl per pair, with no
duplicate detection or merging; concretely, the duplicate directive list
`#[enum_from_variant("Foo", "Foo")]` yields two identical impls. -/
theorem one_impl_per_valid_directive :
    (∀ (n : Ident) (vs : List Variant),
      ∃ l, derive ⟨n, Data.enumData vs⟩ = Except.ok l ∧
        l.countP is_impl = (vs.map variant_impl_count).sum) ∧
    derive ⟨mainErrorIdent, Data.enumData [dupVariant]⟩ =
      Except.ok [GenItem.implFrom ⟨"Foo", ⟨24⟩⟩ mainErrorIdent ⟨"Database", ⟨22⟩⟩ false,
                 GenItem.implFrom ⟨"Foo", ⟨24⟩⟩ mainErrorIdent ⟨"Database", ⟨22⟩⟩ false] := by
  constructor
  · intro n vs
    refine ⟨_, derive_enum_eq_flatten n vs, ?_⟩
    rw [List.countP_flatten, List.map_map]
    exact congrArg List.sum (List.map_congr_left (fun v _ => countP_variant_items n v))
  · rfl

/-- Claim C9: generation is deterministic (the embedded generator is a pure
function, so equal inputs give equal outputs) and order-preserving: the
output is the concatenation, in variant declaration order, of each
variant's item list, which is itself produced in directive declaration
order (`variant_items` traverses `nested_meta` in order). -/
theorem generation_deterministic_order_preserving :
    (∀ input : DeriveInput, derive input = derive input) ∧
    ∀ (n : Ident) (vs : List Variant),
      derive ⟨n, Data.enumData vs⟩ =
        Except.ok ((vs.map (variant_items n)).flatten) :=
  ⟨fun _ => rfl, derive_enum_eq_flatten⟩

/-- Claim C10: for tuple variants with two or more unnamed fields, the
payload classification depends only on the first unnamed field (the
trailing fields are universally quantified in the first conjunct), and the
synthesized rule is still a single-argument constructor call (an
`implFrom` item) with no generator error about the extra fields —
generation succeeds. -/
theorem first_unnamed_field_determines_classification :
    (∀ (f : Field) (fs fs' : List Field),
      get_variant_unnamed_ident (Fields.unnamed (f :: fs)) =
        get_variant_unnamed_ident (Fields.unnamed (f :: fs'))) ∧
    ∀ (n : Ident) (vs : List Variant) (v : Variant)
      (f f2 : Field) (restF : List Field)
      (p : Path) (seg : PathSegment) (segs : List PathSegment)
      (attr : MapEnumDataPunctuated) (s : LitStr),
      v ∈ vs →
      v.fields = Fields.unnamed (f :: f2 :: restF) →
      f.ty = Typ.path p →
      p.segments = seg :: segs →
      get_attributes v = Except.ok attr →
      NestedMeta.lit (Lit.str s) ∈ attr.nested_meta →
      s.value ≠ "" →
      ∃ l, derive ⟨n, Data.enumData vs⟩ = Except.ok l ∧
        GenItem.implFrom ⟨s.value, s.span⟩ n v.ident
          (if seg.ident.name = "String" then true else false) ∈ l := by
  constructor
  · intro f fs fs'
    rfl
  · intro n vs v f f2 restF p seg segs attr s hv hf hty hseg ha hm hne
    obtain ⟨hvi, hii⟩ := get_attributes_ok ha
    have hinner : get_variant_unnamed_ident v.fields = some seg.ident := by
      rw [hf]
      simp [get_variant_unnamed_ident, hty, hseg]
    refine derive_mem_of_directive hv ha hm ?_
    rw [hvi, hii, hinner]
    by_cases hstr : seg.ident.name = "String"
    · simp [construct_meta_item, hne, get_inner_ident_type, hstr]
    · simp [construct_meta_item, hne, get_inner_ident_type, hstr]

/-- Witness for C10: the two-field variant `Pair(DatabaseError, String)`
with target `PairError` classifies by its first field (`DatabaseError`,
non-String) and generates a raw-wrapping single-argument impl. -/
theorem first_unnamed_field_determines_classification_witness :
    ∃ l, derive ⟨mainErrorIdent, Data.enumData [pairVariant]⟩ = Except.ok l ∧
      GenItem.implFrom ⟨"PairError", ⟨21⟩⟩ mainErrorIdent ⟨"Pair", ⟨19⟩⟩ false ∈ l :=
  first_unnamed_field_determines_classification.2 mainErrorIdent [pairVariant] pairVariant
    ⟨Typ.path databaseErrorPath⟩ ⟨Typ.path stringPath⟩ []
    databaseErrorPath ⟨⟨"DatabaseError", ⟨2⟩⟩⟩ []
    ⟨⟨"Pair", ⟨19⟩⟩, [NestedMeta.lit (Lit.str ⟨"PairError", ⟨21⟩⟩)],
      some ⟨"DatabaseError", ⟨2⟩⟩⟩
    ⟨"PairError", ⟨21⟩⟩
    (List.Mem.head _) rfl rfl rfl rfl (List.Mem.head _) (by decide)

end EnumFromVariant
